import Mathlib

/-!
Shallow embedding of the todo-list background-toggle / websocket-notification
subsystem (Python sources: `app/services/todo_lists.py`, `app/services/todo.py`,
`app/websocket/manager.py`, `app/models/Todo.py`, `app/models/TodoList.py`).

Python `int` is embedded as `Int`; Python `Optional[T]` as `Option T`;
Python `set` as `Finset`; a Python `dict[int, set]` as `Int → Option (Finset Nat)`
(`none` = key absent, mirroring `dict.get`).  Connection handles (websockets)
are abstracted as `Nat` identifiers, with a `fails` predicate standing for
"`send_json` raises on this connection".
-/

/-- `Todo` pydantic model (`app/models/Todo.py`): `completed: Optional[bool]`,
`description: Optional[str]`, `id: int`. -/
structure Todo where
  id : Int
  description : Option String
  completed : Option Bool
deriving DecidableEq, Repr

/-- `TodoList` pydantic model (`app/models/TodoList.py`):
`name: str`, `todos: Optional[list[Todo]] = []`, `id: int`. -/
structure TodoList where
  id : Int
  name : String
  todos : Option (List Todo)
deriving DecidableEq, Repr

/-- In-memory list storage of `TodoListService`: `_storage` plus `_next_id`. -/
structure ListStore where
  storage : List TodoList
  next_id : Int
deriving DecidableEq, Repr

/-- `TodoListService.__init__`: empty storage, `_next_id = 1`. -/
def ListStore.init : ListStore := ⟨[], 1⟩

/-- `TodoListService.get`: linear scan, first list whose `id` matches. -/
def getList (storage : List TodoList) (todo_list_id : Int) : Option TodoList :=
  storage.find? (fun tl => tl.id == todo_list_id)

/-- `TodoListService.create`: builds `TodoList(id=self._next_id, name=...)`
(so `todos` takes the pydantic default `[]`), appends it, increments `_next_id`. -/
def TodoListService.create (st : ListStore) (nm : String) : TodoList × ListStore :=
  let new_todo_list : TodoList := { id := st.next_id, name := nm, todos := some [] }
  (new_todo_list, { storage := st.storage ++ [new_todo_list], next_id := st.next_id + 1 })

/-- Python `max(xs, default=0)`: the default is only used when the list is empty. -/
def maxDefault0 (xs : List Int) : Int :=
  match xs with
  | [] => 0
  | x :: rest => rest.foldl max x

/-- The id `TodoService.create` assigns:
`max([todo_item.id for todo_item in todos], default=0) + 1`. -/
def newTodoId (todos : List Todo) : Int :=
  maxDefault0 (todos.map Todo.id) + 1

/-- In-place mutation through the alias returned by `TodoListService.get`:
only the first list satisfying `p` (the one `get` returned) is replaced. -/
def mutateFirst (p : TodoList → Bool) (f : TodoList → TodoList) :
    List TodoList → List TodoList
  | [] => []
  | x :: xs => if p x then f x :: xs else x :: mutateFirst p f xs

/-- `TodoService.create` (`app/services/todo.py`): looks the list up, raises
(`Except.error`) when absent, otherwise appends a todo with the freshly
computed id (`todos = todo_list.todos or []` embedded as `getD []`; the
append mutates the first matching stored list through aliasing). -/
def TodoService.create (storage : List TodoList) (todo_list_id : Int)
    (descr : Option String) (comp : Option Bool) :
    Except String (Todo × List TodoList) :=
  match getList storage todo_list_id with
  | none => Except.error ("Todo list with ID:" ++ toString todo_list_id ++ " not found")
  | some tl =>
    let todos := tl.todos.getD []
    let new_todo : Todo := { id := newTodoId todos, description := descr, completed := comp }
    Except.ok (new_todo,
      mutateFirst (fun x => x.id == todo_list_id)
        (fun x => { x with todos := some ((x.todos.getD []) ++ [new_todo]) }) storage)

/-- Lock registry (`TodoListService._locks`, a shared `set[int]`):
`is_locked` is set membership. -/
def TodoListService.is_locked (locks : Finset Int) (list_id : Int) : Bool :=
  decide (list_id ∈ locks)

/-- `TodoListService.lock`: `self._locks.add(list_id)`. -/
def TodoListService.lock (locks : Finset Int) (list_id : Int) : Finset Int :=
  insert list_id locks

/-- `TodoListService.unlock`: `self._locks.discard(list_id)` (no error when absent). -/
def TodoListService.unlock (locks : Finset Int) (list_id : Int) : Finset Int :=
  locks.erase list_id

/-!  WebSocket manager (`app/websocket/manager.py`).  -/

/-- `WebSocketManager.active_connections : dict[int, set[WebSocket]]`;
`none` means the key is absent. -/
def Registry := Int → Option (Finset Nat)

/-- The empty dictionary `{}`. -/
def Registry.empty : Registry := fun _ => none

/-- Dictionary assignment / deletion at one key. -/
def dictSet (r : Registry) (k : Int) (v : Option (Finset Nat)) : Registry :=
  fun k2 => if k2 = k then v else r k2

/-- The subscriber set visible at a key (`∅` when the key is absent). -/
def subsOf (r : Registry) (l : Int) : Finset Nat := (r l).getD ∅

/-- `WebSocketManager.connect` (sans the `websocket.accept()` I/O): create an
empty entry when absent, then `add` the connection. -/
def WSManager.connect (r : Registry) (list_id : Int) (c : Nat) : Registry :=
  dictSet r list_id (some (insert c ((r list_id).getD ∅)))

/-- `WebSocketManager.disconnect`: `discard` the connection when the key is
present; delete the key when the remaining set is empty; no-op otherwise. -/
def WSManager.disconnect (r : Registry) (list_id : Int) (c : Nat) : Registry :=
  match r list_id with
  | none => r
  | some s =>
    let s2 := s.erase c
    if s2.card = 0 then dictSet r list_id none else dictSet r list_id (some s2)

/-- The `for ws in list(...)` loop of `broadcast`: try `send_json` on each
connection of the snapshot; a raising send (`fails c = true`) triggers
`disconnect` and the loop continues.  Returns the successfully delivered
connections and the final registry. -/
def sendAll (list_id : Int) (fails : Nat → Bool) :
    List Nat → Registry → List Nat × Registry
  | [], r => ([], r)
  | c :: cs, r =>
    if fails c then
      sendAll list_id fails cs (WSManager.disconnect r list_id c)
    else
      let rest := sendAll list_id fails cs r
      (c :: rest.1, rest.2)

/-- Outcome of one `broadcast` call: the snapshot iterated over, the
connections delivered to, and the registry afterwards. -/
structure BroadcastResult where
  attempted : List Nat
  delivered : List Nat
  registry : Registry

/-- `WebSocketManager.broadcast`: return unchanged when the key is absent,
otherwise iterate over a snapshot (`list(...)`) of the subscriber set. -/
def WSManager.broadcast (r : Registry) (list_id : Int) (fails : Nat → Bool) :
    BroadcastResult :=
  match r list_id with
  | none => ⟨[], [], r⟩
  | some s =>
    let snapshot := s.sort (fun a b => a ≤ b)
    let res := sendAll list_id fails snapshot r
    ⟨snapshot, res.1, res.2⟩

/-- Python truthiness of `conns and len(conns) > 0` where
`conns = active_connections.get(list_id)`. -/
def hasConns (o : Option (Finset Nat)) : Bool :=
  match o with
  | none => false
  | some s => decide (0 < s.card)

/-- Trace of one `broadcast_retry` run: how many `get` checks ran, how many
`asyncio.sleep(delay)` calls ran, and the attempt index (if any) at which
`broadcast` was invoked. -/
structure RetryResult where
  checks : Nat
  sleeps : Nat
  deliveredAt : Option Nat
deriving DecidableEq, Repr

/-- The `for attempt in range(retries)` loop of `broadcast_retry`, started at
attempt index `t` with `n` iterations left; `conns_at t` is the registry entry
for the target list id as observed at attempt `t` (it may change between
attempts — that is the point of the retry). -/
def broadcastRetryFrom (conns_at : Nat → Option (Finset Nat)) : Nat → Nat → RetryResult
  | _, 0 => ⟨0, 0, none⟩
  | t, n + 1 =>
    if hasConns (conns_at t) then ⟨1, 0, some t⟩
    else
      let rest := broadcastRetryFrom conns_at (t + 1) n
      ⟨rest.checks + 1, rest.sleeps + 1, rest.deliveredAt⟩

/-- `WebSocketManager.broadcast_retry` with an explicit attempt budget. -/
def broadcast_retry (conns_at : Nat → Option (Finset Nat)) (retries : Nat) : RetryResult :=
  broadcastRetryFrom conns_at 0 retries

/-- Source default `retries: int = 10`. -/
def broadcast_retry_default_retries : Nat := 10

/-- Source default `delay: float = 0.1` (exactly representable here as 1/10). -/
def broadcast_retry_default_delay : ℚ := 1 / 10

/-!  Background toggle task (`TodoListService.process_toggle_complete_background`).  -/

/-- Events scheduled onto the event loop via `call_soon_threadsafe`, each one a
`websocket_manager.broadcast_retry(list_id, payload)` task. -/
inductive PyEvent where
  | done (listId : Int) (completed : Bool)
  | error (listId : Int) (msg : String)
deriving DecidableEq, Repr

/-- Exception oracle for the `try` body: `ok` — no exception is raised by
lookup or mutation; `raiseLookup msg` — `self.get(todo_list_id)` raises with
`str(err) = msg`; `raiseMutation k msg` — the mutation `for`-loop raises with
`str(err) = msg` just before processing the todo at index `k` (the first `k`
todos have already been mutated in place). -/
inductive ToggleOracle where
  | ok
  | raiseLookup (msg : String)
  | raiseMutation (k : Nat) (msg : String)
deriving DecidableEq, Repr

/-- Combined shared state the task touches: the storage and the lock set. -/
structure SysState where
  storage : List TodoList
  locks : Finset Int
deriving DecidableEq

/-- What one task execution leaves behind: the shared state, the events it
scheduled (in order), and the exception escaping the task, if any. -/
structure TaskResult where
  storage : List TodoList
  locks : Finset Int
  events : List PyEvent
  escaped : Option String
deriving DecidableEq

/-- `todo.completed = completed` applied to the first `k` todos of a list
(the partial effect left when the mutation loop raises at index `k`). -/
def setCompletedFirst (v : Bool) (k : Nat) (ts : List Todo) : List Todo :=
  (ts.take k).map (fun t => { t with completed := some v }) ++ ts.drop k

/-- `todo.completed = completed` applied to every todo of the list. -/
def setCompletedAll (v : Bool) (ts : List Todo) : List Todo :=
  ts.map (fun t => { t with completed := some v })

/-- `TodoListService.process_toggle_complete_background`, embedded path by
path, including the `finally` block `del todos; del todo_list; self.unlock(...)`.

Python `del x` on a local that was never bound raises `UnboundLocalError`;
inside the `finally` block that exception aborts the rest of the block (so
`unlock` does not run) and escapes the function.  The local `todos` is bound
only on the list-present path, so:

* list absent (normal lookup): the not-found error event is scheduled and the
  function returns, but `del todos` in the `finally` block raises — the task
  escapes with `UnboundLocalError` and the lock is not released;
* lookup raises: the `except` block schedules the error event, then the
  `del todos` in the `finally` block raises as above;
* list present (mutation succeeds or raises): `todos` and `todo_list` are both
  bound, the `del`s succeed and `unlock` runs; no exception escapes.

On the list-present path the mutation acts, through aliasing, on the stored
list object that `get` returned (the first one with a matching id); when
`todo_list.todos` is `None`, `todos = todo_list.todos or []` is a fresh empty
list and the stored field stays `None`. -/
def process_toggle_complete_background (st : SysState) (todo_list_id : Int)
    (completed : Bool) (oracle : ToggleOracle) : TaskResult :=
  match oracle with
  | ToggleOracle.raiseLookup msg =>
    { storage := st.storage, locks := st.locks,
      events := [PyEvent.error todo_list_id msg],
      escaped := some "UnboundLocalError" }
  | ToggleOracle.ok =>
    match getList st.storage todo_list_id with
    | none =>
      { storage := st.storage, locks := st.locks,
        events := [PyEvent.error todo_list_id "TodoList not found"],
        escaped := some "UnboundLocalError" }
    | some _ =>
      { storage := mutateFirst (fun tl => tl.id == todo_list_id)
          (fun tl => { tl with todos := tl.todos.map (setCompletedAll completed) })
          st.storage,
        locks := TodoListService.unlock st.locks todo_list_id,
        events := [PyEvent.done todo_list_id completed],
        escaped := none }
  | ToggleOracle.raiseMutation k msg =>
    match getList st.storage todo_list_id with
    | none =>
      { storage := st.storage, locks := st.locks,
        events := [PyEvent.error todo_list_id "TodoList not found"],
        escaped := some "UnboundLocalError" }
    | some _ =>
      { storage := mutateFirst (fun tl => tl.id == todo_list_id)
          (fun tl => { tl with todos := tl.todos.map (setCompletedFirst completed k) })
          st.storage,
        locks := TodoListService.unlock st.locks todo_list_id,
        events := [PyEvent.error todo_list_id msg],
        escaped := none }

/-!  Helper lemmas.  -/

/-- A prefix on which the predicate is everywhere false does not affect `find?`. -/
theorem find?_append_all_neg (p : TodoList → Bool) (pre l2 : List TodoList)
    (h : ∀ x ∈ pre, p x = false) :
    List.find? p (pre ++ l2) = List.find? p l2 := by
  induction pre with
  | nil => rfl
  | cons x xs ih =>
    rw [List.cons_append, List.find?_cons_of_neg _ (by simp [h x (by simp)])]
    exact ih (fun y hy => h y (by simp [hy]))

/-- When `find?` locates `tl`, the list splits as `pre ++ tl :: post` with the
predicate false on `pre`, and `mutateFirst` rewrites exactly that occurrence. -/
theorem mutateFirst_decomp (p : TodoList → Bool) (f : TodoList → TodoList)
    (storage : List TodoList) (tl : TodoList) (h : storage.find? p = some tl) :
    ∃ pre post, storage = pre ++ tl :: post ∧ (∀ x ∈ pre, p x = false) ∧
      mutateFirst p f storage = pre ++ f tl :: post := by
  induction storage with
  | nil => simp at h
  | cons x xs ih =>
    cases hx : p x with
    | true =>
      rw [List.find?_cons_of_pos xs hx] at h
      injection h with h2
      subst h2
      exact ⟨[], xs, rfl, by simp, by simp [mutateFirst, hx]⟩
    | false =>
      rw [List.find?_cons_of_neg xs (by simp [hx])] at h
      obtain ⟨pre, post, h1, h2, h3⟩ := ih h
      refine ⟨x :: pre, post, by simp [h1], ?_, by simp [mutateFirst, hx, h3]⟩
      intro y hy
      rcases List.mem_cons.mp hy with rfl | hy2
      · exact hx
      · exact h2 y hy2

/-- Closed form of the task on the list-present, no-exception path. -/
theorem toggle_ok_present_eq (st : SysState) (l : Int) (v : Bool) (tl : TodoList)
    (h : getList st.storage l = some tl) :
    process_toggle_complete_background st l v ToggleOracle.ok =
      { storage := mutateFirst (fun x => x.id == l)
          (fun x => { x with todos := x.todos.map (setCompletedAll v) }) st.storage,
        locks := TodoListService.unlock st.locks l,
        events := [PyEvent.done l v],
        escaped := none } := by
  simp [process_toggle_complete_background, h]

/-!  Claims.  -/

/-- Claim C8: after `lock L`, `is_locked L` is true; after `unlock L`,
`is_locked L` is false; `lock` on an already-locked id leaves the set
unchanged, and `unlock` on an already-unlocked id is a no-op (and, being a
total function on sets, raises no error). -/
theorem lock_registry_spec (locks : Finset Int) (l : Int) :
    TodoListService.is_locked (TodoListService.lock locks l) l = true ∧
    TodoListService.is_locked (TodoListService.unlock locks l) l = false ∧
    (TodoListService.is_locked locks l = true → TodoListService.lock locks l = locks) ∧
    (TodoListService.is_locked locks l = false → TodoListService.unlock locks l = locks) := by
  refine ⟨?_, ?_, ?_, ?_⟩
  · simp [TodoListService.is_locked, TodoListService.lock]
  · simp [TodoListService.is_locked, TodoListService.unlock]
  · intro h
    simp only [TodoListService.is_locked, decide_eq_true_eq] at h
    simp [TodoListService.lock, Finset.insert_eq_self.mpr h]
  · intro h
    simp only [TodoListService.is_locked, decide_eq_false_iff_not] at h
    simp [TodoListService.unlock, Finset.erase_eq_self.mpr h]

/-- Witness for `lock_registry_spec` at `locks = {2}`, `l = 1`. -/
theorem lock_registry_spec_witness :
    TodoListService.is_locked (TodoListService.lock {2} 1) 1 = true ∧
    TodoListService.unlock ({2} : Finset Int) 1 = {2} :=
  ⟨(lock_registry_spec {2} 1).1, (lock_registry_spec {2} 1).2.2.2 (by decide)⟩

/-- Claim C1 is refuted by the code: on an absent list id the `finally`
block hits an unbound local in `del todos` and raises `UnboundLocalError`
before `unlock` runs, so the lock id stays in the lock set and an exception
escapes the task.  Evaluation at storage `[]`, lock set `{1}`, list id `1`. -/
theorem toggle_absent_leaks_lock_eval :
    (process_toggle_complete_background ⟨[], {1}⟩ 1 true ToggleOracle.ok).locks = {1} ∧
    (process_toggle_complete_background ⟨[], {1}⟩ 1 true ToggleOracle.ok).escaped =
      some "UnboundLocalError" :=
  ⟨rfl, rfl⟩

/-- Claim C2: on a list id absent from the store, the task schedules exactly
one `toggle_complete_error` event with message "TodoList not found" onto the
retry broadcast, never a `toggle_complete_done` event, and leaves the storage
unchanged. -/
theorem toggle_absent_emits_single_error (st : SysState) (l : Int) (v : Bool)
    (h : getList st.storage l = none) :
    (process_toggle_complete_background st l v ToggleOracle.ok).events =
      [PyEvent.error l "TodoList not found"] ∧
    (∀ lid c, PyEvent.done lid c ∉
      (process_toggle_complete_background st l v ToggleOracle.ok).events) ∧
    (process_toggle_complete_background st l v ToggleOracle.ok).storage = st.storage := by
  simp [process_toggle_complete_background, h]

/-- Witness for `toggle_absent_emits_single_error`: empty store, list id 9. -/
theorem toggle_absent_emits_single_error_witness :
    (process_toggle_complete_background ⟨[], ∅⟩ 9 true ToggleOracle.ok).events =
      [PyEvent.error 9 "TodoList not found"] ∧
    (∀ lid c, PyEvent.done lid c ∉
      (process_toggle_complete_background ⟨[], ∅⟩ 9 true ToggleOracle.ok).events) ∧
    (process_toggle_complete_background ⟨[], ∅⟩ 9 true ToggleOracle.ok).storage = [] :=
  toggle_absent_emits_single_error ⟨[], ∅⟩ 9 true rfl

/-- Claim C4 is refuted by the code: an exception raised during the list
lookup is caught and converted to the error event, but the `finally` block
then raises `UnboundLocalError` (`del todos` on an unbound local), so a
process-level fault does escape the task (and the lock is leaked).
Evaluation with a lookup raising `str(err) = "boom"`. -/
theorem toggle_lookup_exception_faults_eval :
    (process_toggle_complete_background ⟨[], {1}⟩ 1 true
      (ToggleOracle.raiseLookup "boom")).events = [PyEvent.error 1 "boom"] ∧
    (process_toggle_complete_background ⟨[], {1}⟩ 1 true
      (ToggleOracle.raiseLookup "boom")).escaped = some "UnboundLocalError" ∧
    (process_toggle_complete_background ⟨[], {1}⟩ 1 true
      (ToggleOracle.raiseLookup "boom")).locks = {1} :=
  ⟨rfl, rfl, rfl⟩

/-- Claim C3: on a present list, the task sets `completed := v` on every todo,
leaves the `description` and `id` of every todo unchanged (the stored todo list
becomes the pointwise record update), and schedules exactly one
`toggle_complete_done` event carrying `v`. -/
theorem toggle_present_sets_all_completed (st : SysState) (l : Int) (v : Bool)
    (tl : TodoList) (h : getList st.storage l = some tl) :
    (process_toggle_complete_background st l v ToggleOracle.ok).events =
      [PyEvent.done l v] ∧
    ∃ tl2, getList (process_toggle_complete_background st l v ToggleOracle.ok).storage l =
        some tl2 ∧
      tl2.todos.getD [] = (tl.todos.getD []).map (fun t => { t with completed := some v }) ∧
      (tl2.todos.getD []).length = (tl.todos.getD []).length ∧
      (∀ t2 ∈ tl2.todos.getD [], t2.completed = some v) := by
  have hfind : st.storage.find? (fun x => x.id == l) = some tl := h
  have hptl := List.find?_some hfind
  obtain ⟨pre, post, hdec, hpre, hmut⟩ :=
    mutateFirst_decomp (fun x => x.id == l)
      (fun x => { x with todos := x.todos.map (setCompletedAll v) }) st.storage tl h
  rw [toggle_ok_present_eq st l v tl h]
  refine ⟨rfl, { tl with todos := tl.todos.map (setCompletedAll v) }, ?_, ?_, ?_, ?_⟩
  · show getList (mutateFirst _ _ st.storage) l = _
    rw [hmut]
    unfold getList
    rw [find?_append_all_neg _ _ _ hpre, List.find?_cons_of_pos _ (by simpa using hptl)]
  · cases tl.todos <;> simp [setCompletedAll]
  · cases tl.todos <;> simp [setCompletedAll]
  · cases tl.todos <;> simp [setCompletedAll]

/-- Witness for `toggle_present_sets_all_completed`: list 5 with two
uncompleted todos, toggled to `true`. -/
theorem toggle_present_sets_all_completed_witness :
    (process_toggle_complete_background
      ⟨[⟨5, "groceries", some [⟨1, some "milk", some false⟩, ⟨2, some "eggs", some false⟩]⟩],
        {5}⟩ 5 true ToggleOracle.ok).events = [PyEvent.done 5 true] ∧
    ∃ tl2, getList (process_toggle_complete_background
        ⟨[⟨5, "groceries", some [⟨1, some "milk", some false⟩, ⟨2, some "eggs", some false⟩]⟩],
          {5}⟩ 5 true ToggleOracle.ok).storage 5 = some tl2 ∧
      tl2.todos.getD [] =
        ([⟨1, some "milk", some false⟩, ⟨2, some "eggs", some false⟩] : List Todo).map
          (fun t => { t with completed := some true }) ∧
      (tl2.todos.getD []).length =
        ((some [⟨1, some "milk", some false⟩, ⟨2, some "eggs", some false⟩] :
          Option (List Todo)).getD []).length ∧
      (∀ t2 ∈ tl2.todos.getD [], t2.completed = some true) :=
  toggle_present_sets_all_completed
    ⟨[⟨5, "groceries", some [⟨1, some "milk", some false⟩, ⟨2, some "eggs", some false⟩]⟩], {5}⟩
    5 true ⟨5, "groceries", some [⟨1, some "milk", some false⟩, ⟨2, some "eggs", some false⟩]⟩
    rfl

/-- Claim C10 (frame): on a present list the task only rewrites that one
stored list, and only the `completed` fields of its todos: the store splits as
`pre ++ tl :: post` before and `pre ++ tlNew :: post` after, where `tlNew` keeps
the `id` and `name` of `tl` and maps `completed := v` over the todos; the store
length, the todo count and the todo id order are all preserved. -/
theorem toggle_frame_condition (st : SysState) (l : Int) (v : Bool)
    (tl : TodoList) (h : getList st.storage l = some tl) :
    ∃ pre post,
      st.storage = pre ++ tl :: post ∧
      (process_toggle_complete_background st l v ToggleOracle.ok).storage =
        pre ++ { tl with todos := tl.todos.map (setCompletedAll v) } :: post ∧
      (process_toggle_complete_background st l v ToggleOracle.ok).storage.length =
        st.storage.length ∧
      ((tl.todos.map (setCompletedAll v)).getD []).map Todo.id =
        (tl.todos.getD []).map Todo.id := by
  obtain ⟨pre, post, hdec, hpre, hmut⟩ :=
    mutateFirst_decomp (fun x => x.id == l)
      (fun x => { x with todos := x.todos.map (setCompletedAll v) }) st.storage tl h
  rw [toggle_ok_present_eq st l v tl h]
  refine ⟨pre, post, hdec, hmut, ?_, ?_⟩
  · rw [hmut, hdec]
    simp
  · cases tl.todos <;> simp [setCompletedAll]

/-- Witness for `toggle_frame_condition`: two stored lists, toggling list 1. -/
theorem toggle_frame_condition_witness :
    ∃ pre post,
      ([⟨1, "a", some [⟨1, some "x", some false⟩]⟩, ⟨2, "b", some []⟩] : List TodoList) =
        pre ++ (⟨1, "a", some [⟨1, some "x", some false⟩]⟩ : TodoList) :: post ∧
      (process_toggle_complete_background
        ⟨[⟨1, "a", some [⟨1, some "x", some false⟩]⟩, ⟨2, "b", some []⟩], ∅⟩ 1 false
        ToggleOracle.ok).storage =
        pre ++ ({ (⟨1, "a", some [⟨1, some "x", some false⟩]⟩ : TodoList) with
          todos := (some [⟨1, some "x", some false⟩] : Option (List Todo)).map
            (setCompletedAll false) } : TodoList) :: post ∧
      (process_toggle_complete_background
        ⟨[⟨1, "a", some [⟨1, some "x", some false⟩]⟩, ⟨2, "b", some []⟩], ∅⟩ 1 false
        ToggleOracle.ok).storage.length =
        ([⟨1, "a", some [⟨1, some "x", some false⟩]⟩, ⟨2, "b", some []⟩] : List TodoList).length ∧
      (((some [⟨1, some "x", some false⟩] : Option (List Todo)).map
          (setCompletedAll false)).getD []).map Todo.id =
        ((some [⟨1, some "x", some false⟩] : Option (List Todo)).getD []).map Todo.id :=
  toggle_frame_condition
    ⟨[⟨1, "a", some [⟨1, some "x", some false⟩]⟩, ⟨2, "b", some []⟩], ∅⟩ 1 false
    ⟨1, "a", some [⟨1, some "x", some false⟩]⟩ rfl

/-- When no subscriber shows up during the next `n` attempts, the retry loop
performs `n` checks, `n` sleeps, and never invokes `broadcast`. -/
theorem broadcastRetryFrom_none (conns_at : Nat → Option (Finset Nat)) :
    ∀ (n t : Nat), (∀ t2, t ≤ t2 → t2 < t + n → hasConns (conns_at t2) = false) →
      broadcastRetryFrom conns_at t n = ⟨n, n, none⟩ := by
  intro n
  induction n with
  | zero => intro t _; rfl
  | succ m ih =>
    intro t h
    have h0 : hasConns (conns_at t) = false := h t (le_refl t) (by omega)
    simp only [broadcastRetryFrom, h0, Bool.false_eq_true, if_false]
    rw [ih (t + 1) (fun t2 h1 h2 => h t2 (by omega) (by omega))]

/-- When the first attempt seeing a subscriber is `t0`, the retry loop checks
`t0 - t + 1` times, sleeps `t0 - t` times, and invokes `broadcast` at `t0`. -/
theorem broadcastRetryFrom_found (conns_at : Nat → Option (Finset Nat)) :
    ∀ (n t t0 : Nat), t ≤ t0 → t0 < t + n →
      (∀ t2, t ≤ t2 → t2 < t0 → hasConns (conns_at t2) = false) →
      hasConns (conns_at t0) = true →
      broadcastRetryFrom conns_at t n = ⟨t0 - t + 1, t0 - t, some t0⟩ := by
  intro n
  induction n with
  | zero => intro t t0 h1 h2 _ _; omega
  | succ m ih =>
    intro t t0 h1 h2 hb hn
    by_cases ht : t0 = t
    · subst ht
      simp [broadcastRetryFrom, hn]
    · have h0 : hasConns (conns_at t) = false := hb t (le_refl t) (by omega)
      simp only [broadcastRetryFrom, h0, Bool.false_eq_true, if_false]
      rw [ih (t + 1) t0 (by omega) (by omega) (fun t2 a b => hb t2 (by omega) b) hn]
      simp only [RetryResult.mk.injEq]
      refine ⟨by omega, by omega, trivial⟩

/-- Claim C5: with zero subscribers throughout and an attempt budget of 3,
`broadcast_retry` performs exactly 3 checks, each followed by a delay, and
returns without invoking `broadcast`; when the first subscriber is observed at
attempt `t0 < 3`, `broadcast` is invoked at that attempt and no further checks
or delays happen; the source defaults are 10 attempts and a fixed 0.1 delay. -/
theorem broadcast_retry_spec (conns_at : Nat → Option (Finset Nat)) :
    ((∀ t, t < 3 → hasConns (conns_at t) = false) →
      broadcast_retry conns_at 3 = ⟨3, 3, none⟩) ∧
    (∀ t0, t0 < 3 → (∀ t, t < t0 → hasConns (conns_at t) = false) →
      hasConns (conns_at t0) = true →
      broadcast_retry conns_at 3 = ⟨t0 + 1, t0, some t0⟩) ∧
    broadcast_retry_default_retries = 10 ∧
    broadcast_retry_default_delay = 1 / 10 := by
  refine ⟨?_, ?_, rfl, rfl⟩
  · intro h
    exact broadcastRetryFrom_none conns_at 3 0 (fun t2 _ h2 => h t2 (by omega))
  · intro t0 ht0 hb hn
    have key := broadcastRetryFrom_found conns_at 3 0 t0 (by omega) (by omega)
      (fun t2 _ h2 => hb t2 h2) hn
    exact key

/-- Witness for `broadcast_retry_spec`: no subscriber at all, and a single
subscriber (connection 7) appearing at attempt 1. -/
theorem broadcast_retry_spec_witness :
    broadcast_retry (fun _ => none) 3 = ⟨3, 3, none⟩ ∧
    broadcast_retry (fun t => if t = 1 then some {7} else none) 3 = ⟨2, 1, some 1⟩ :=
  ⟨(broadcast_retry_spec (fun _ => none)).1 (fun t _ => rfl),
   (broadcast_retry_spec (fun t => if t = 1 then some {7} else none)).2.1 1 (by omega)
     (fun t ht => by
       have h0 : t = 0 := by omega
       subst h0
       rfl)
     (by rfl)⟩

/-- `disconnect` acts on the visible subscriber set of its key as `erase`. -/
theorem disconnect_subsOf (r : Registry) (l : Int) (c : Nat) :
    subsOf (WSManager.disconnect r l c) l = (subsOf r l).erase c := by
  unfold subsOf WSManager.disconnect
  cases hr : r l with
  | none => simp [hr]
  | some s =>
    by_cases hc : (s.erase c).card = 0
    · simp [hr, hc, dictSet, Finset.card_eq_zero.mp hc]
    · simp [hr, hc, dictSet]

/-- The delivered connections of the send loop are exactly the non-failing
ones of the snapshot, whatever the registry looks like. -/
theorem sendAll_delivered (l : Int) (fails : Nat → Bool) (cs : List Nat) :
    ∀ r : Registry, (sendAll l fails cs r).1 = cs.filter (fun c => !(fails c)) := by
  induction cs with
  | nil => intro r; rfl
  | cons c cs2 ih =>
    intro r
    cases hc : fails c with
    | true => simp [sendAll, hc, ih]
    | false => simp [sendAll, hc, ih]

/-- Membership in the subscriber set after the send loop: a connection
survives iff it was subscribed and did not fail while being processed. -/
theorem sendAll_mem_subsOf (l : Int) (fails : Nat → Bool) (cs : List Nat) :
    ∀ (r : Registry) (m : Nat),
      (m ∈ subsOf (sendAll l fails cs r).2 l ↔
        m ∈ subsOf r l ∧ (m ∈ cs → fails m = false)) := by
  induction cs with
  | nil => intro r m; simp [sendAll]
  | cons c cs2 ih =>
    intro r m
    cases hc : fails c with
    | true =>
      simp only [sendAll, hc, if_true]
      rw [ih, disconnect_subsOf, Finset.mem_erase]
      by_cases hm : m = c
      · subst hm
        simp [hc]
      · simp [hm]
    | false =>
      simp only [sendAll, hc, Bool.false_eq_true, if_false]
      rw [ih]
      by_cases hm : m = c
      · subst hm
        simp [hc]
      · simp [hm]

/-- Claim C6: `broadcast` on a registered list id attempts delivery to every
subscribed connection; a failing connection is unsubscribed from the list id
as a side effect, while every non-failing connection is still delivered to —
one broken connection never blocks the others. -/
theorem broadcast_isolates_failed_connections (r : Registry) (l : Int)
    (s : Finset Nat) (fails : Nat → Bool) (h : r l = some s) :
    (∀ c, c ∈ (WSManager.broadcast r l fails).attempted ↔ c ∈ s) ∧
    (∀ c ∈ s, fails c = false → c ∈ (WSManager.broadcast r l fails).delivered) ∧
    (∀ c ∈ s, fails c = true → c ∉ subsOf (WSManager.broadcast r l fails).registry l) := by
  have hb : WSManager.broadcast r l fails =
      ⟨s.sort (fun a b => a ≤ b),
       (sendAll l fails (s.sort (fun a b => a ≤ b)) r).1,
       (sendAll l fails (s.sort (fun a b => a ≤ b)) r).2⟩ := by
    simp [WSManager.broadcast, h]
  rw [hb]
  refine ⟨?_, ?_, ?_⟩
  · intro c
    exact Finset.mem_sort _
  · intro c hcs hcf
    rw [sendAll_delivered]
    rw [List.mem_filter]
    exact ⟨(Finset.mem_sort _).mpr hcs, by simp [hcf]⟩
  · intro c hcs hcf hmem
    have h2 := (sendAll_mem_subsOf l fails (s.sort (fun a b => a ≤ b)) r c).mp hmem
    have h3 := h2.2 ((Finset.mem_sort _).mpr hcs)
    rw [hcf] at h3
    exact Bool.true_eq_false.mp h3

/-- Witness for `broadcast_isolates_failed_connections`: list 1 has
subscribers `{1, 2}`, connection 2 is broken — connection 1 is still
delivered to and connection 2 is unsubscribed. -/
theorem broadcast_isolates_failed_connections_witness :
    (1 ∈ (WSManager.broadcast (dictSet Registry.empty 1 (some {1, 2})) 1
      (fun c => c == 2)).delivered) ∧
    (2 ∉ subsOf (WSManager.broadcast (dictSet Registry.empty 1 (some {1, 2})) 1
      (fun c => c == 2)).registry 1) := by
  have h := broadcast_isolates_failed_connections (dictSet Registry.empty 1 (some {1, 2}))
    1 {1, 2} (fun c => c == 2) rfl
  exact ⟨h.2.1 1 (by decide) rfl, h.2.2 2 (by decide) rfl⟩

/-- One subscribe (`connect`) or unsubscribe (`disconnect`) operation. -/
inductive WSOp where
  | sub (list_id : Int) (c : Nat)
  | unsub (list_id : Int) (c : Nat)
deriving DecidableEq, Repr

/-- Run one operation against the registry. -/
def applyOp (r : Registry) : WSOp → Registry
  | WSOp.sub l c => WSManager.connect r l c
  | WSOp.unsub l c => WSManager.disconnect r l c

/-- Run a whole sequence of operations, oldest first. -/
def applyOps (ops : List WSOp) (r : Registry) : Registry :=
  ops.foldl applyOp r

/-- The set-level net effect of one operation on the subscribers of `l`. -/
def netStep (l : Int) (s : Finset Nat) : WSOp → Finset Nat
  | WSOp.sub l2 c => if l2 = l then insert c s else s
  | WSOp.unsub l2 c => if l2 = l then s.erase c else s

/-- The net effect of a sequence on the subscribers of `l`, starting empty. -/
def netEffect (l : Int) (ops : List WSOp) : Finset Nat :=
  ops.foldl (netStep l) ∅

/-- Canonical dictionary entry for a subscriber set: absent iff empty. -/
def ifForm (s : Finset Nat) : Option (Finset Nat) :=
  if s = ∅ then none else some s

theorem ifForm_getD (s : Finset Nat) : (ifForm s).getD ∅ = s := by
  by_cases h : s = ∅ <;> simp [ifForm, h]

/-- One operation preserves the canonical absent-iff-empty shape, pointwise. -/
theorem applyOp_ifForm (r : Registry) (f : Int → Finset Nat)
    (h : ∀ l, r l = ifForm (f l)) (op : WSOp) :
    ∀ l, applyOp r op l = ifForm (netStep l (f l) op) := by
  cases op with
  | sub l2 c =>
    intro l
    by_cases hl : l = l2
    · subst hl
      have hg : (r l).getD ∅ = f l := by rw [h l]; exact ifForm_getD _
      simp [applyOp, WSManager.connect, dictSet, hg, netStep, ifForm,
        Finset.insert_ne_empty]
    · have hne : ¬l2 = l := fun hx => hl hx.symm
      simp [applyOp, WSManager.connect, dictSet, hl, netStep, hne, h l]
  | unsub l2 c =>
    intro l
    by_cases hl : l = l2
    · subst hl
      rw [applyOp]
      cases hr : r l with
      | none =>
        have hf : f l = ∅ := by
          by_contra hne
          rw [h l] at hr
          simp [ifForm, hne] at hr
        simp [WSManager.disconnect, hr, netStep, hf, ifForm, h l]
      | some s =>
        have hfs : f l = s ∧ s ≠ ∅ := by
          rw [h l] at hr
          by_cases hne : f l = ∅
          · simp [ifForm, hne] at hr
          · simp [ifForm, hne] at hr
            exact ⟨hr, hr ▸ hne⟩
        by_cases hc : (s.erase c).card = 0
        · simp [WSManager.disconnect, hr, hc, dictSet, netStep, hfs.1,
            Finset.card_eq_zero.mp hc, ifForm]
        · have hne2 : ¬s.erase c = ∅ := fun h0 => hc (Finset.card_eq_zero.mpr h0)
          simp [WSManager.disconnect, hr, hc, dictSet, netStep, hfs.1, ifForm, hne2]
    · have hne : ¬l2 = l := fun hx => hl hx.symm
      rw [applyOp]
      cases hr : r l2 with
      | none =>
        simp [WSManager.disconnect, hr, netStep, hne, h l]
      | some s =>
        by_cases hc : (s.erase c).card = 0 <;>
          simp [WSManager.disconnect, hr, hc, dictSet, hl, netStep, hne, h l]

/-- Running a sequence preserves the canonical shape and tracks the net
effect, pointwise at every list id. -/
theorem applyOps_ifForm (ops : List WSOp) :
    ∀ (r : Registry) (f : Int → Finset Nat), (∀ l, r l = ifForm (f l)) →
      ∀ l, applyOps ops r l = ifForm (ops.foldl (netStep l) (f l)) := by
  induction ops with
  | nil => intro r f h l; exact h l
  | cons op ops2 ih =>
    intro r f h l
    have step := applyOp_ifForm r f h op
    exact ih (applyOp r op) (fun l2 => netStep l2 (f l2) op) step l

/-- `disconnect` is a no-op when the connection is not subscribed, provided
the registry entry has the canonical absent-iff-empty shape. -/
theorem disconnect_no_op (r : Registry) (l : Int) (c : Nat) (s : Finset Nat)
    (hr : r l = ifForm s) (hc : c ∉ s) :
    WSManager.disconnect r l c = r := by
  by_cases h : s = ∅
  · have hn : r l = none := by rw [hr, h]; rfl
    unfold WSManager.disconnect
    rw [hn]
  · have hsome : r l = some s := by rw [hr]; simp [ifForm, h]
    have herase : s.erase c = s := Finset.erase_eq_self.mpr hc
    have hcard : ¬(s.erase c).card = 0 := by
      rw [herase]
      simpa [Finset.card_eq_zero] using h
    simp only [WSManager.disconnect, hsome]
    rw [if_neg hcard, herase]
    funext x
    rw [dictSet]
    by_cases hx : x = l
    · subst hx
      rw [if_pos rfl, hsome]
    · rw [if_neg hx]

/-- Claim C7: starting from the empty registry, any finite sequence of
subscribe/unsubscribe operations leaves the subscriber set of a list id equal
to the net effect of the sequence; the registry entry exists iff that set is
non-empty; and `disconnect` of a connection not currently subscribed (in
particular on an absent list id) is a no-op on the whole registry. -/
theorem subscribe_unsubscribe_net_effect (ops : List WSOp) (l : Int) :
    subsOf (applyOps ops Registry.empty) l = netEffect l ops ∧
    ((applyOps ops Registry.empty) l = none ↔ netEffect l ops = ∅) ∧
    (∀ c, c ∉ subsOf (applyOps ops Registry.empty) l →
      WSManager.disconnect (applyOps ops Registry.empty) l c =
        applyOps ops Registry.empty) := by
  have key := applyOps_ifForm ops Registry.empty (fun _ => ∅)
    (fun l2 => by simp [Registry.empty, ifForm])
  have keyl : applyOps ops Registry.empty l = ifForm (netEffect l ops) := key l
  have hsub : subsOf (applyOps ops Registry.empty) l = netEffect l ops := by
    rw [subsOf, keyl]
    exact ifForm_getD _
  refine ⟨hsub, ?_, ?_⟩
  · rw [keyl]
    by_cases h : netEffect l ops = ∅ <;> simp [ifForm, h]
  · intro c hc
    rw [hsub] at hc
    exact disconnect_no_op _ l c (netEffect l ops) keyl hc

/-- Witness for `subscribe_unsubscribe_net_effect`: subscribe 5 and 7 to
list 1, unsubscribe 5; the set is `{7}` and unsubscribing the absent
connection 9 is a no-op. -/
theorem subscribe_unsubscribe_net_effect_witness :
    subsOf (applyOps [WSOp.sub 1 5, WSOp.sub 1 7, WSOp.unsub 1 5] Registry.empty) 1 = {7} ∧
    WSManager.disconnect
        (applyOps [WSOp.sub 1 5, WSOp.sub 1 7, WSOp.unsub 1 5] Registry.empty) 1 9 =
      applyOps [WSOp.sub 1 5, WSOp.sub 1 7, WSOp.unsub 1 5] Registry.empty := by
  have h := subscribe_unsubscribe_net_effect [WSOp.sub 1 5, WSOp.sub 1 7, WSOp.unsub 1 5] 1
  constructor
  · rw [h.1]
    decide
  · exact h.2.2 9 (by rw [h.1]; decide)

/-- The seed of `foldl max` bounds the result from below, and so does every
element folded over. -/
theorem foldl_max_bounds (xs : List Int) :
    ∀ a : Int, a ≤ xs.foldl max a ∧ ∀ x ∈ xs, x ≤ xs.foldl max a := by
  induction xs with
  | nil =>
    intro a
    exact ⟨le_refl a, by simp⟩
  | cons x xs ih =>
    intro a
    simp only [List.foldl_cons]
    refine ⟨le_trans (le_max_left a x) (ih (max a x)).1, ?_⟩
    intro y hy
    rcases List.mem_cons.mp hy with h0 | h0
    · subst h0
      exact le_trans (le_max_right a y) (ih (max a y)).1
    · exact (ih (max a x)).2 y h0

/-- `foldl max` returns either its seed or one of the folded elements. -/
theorem foldl_max_mem (xs : List Int) :
    ∀ a : Int, xs.foldl max a = a ∨ xs.foldl max a ∈ xs := by
  induction xs with
  | nil => intro a; exact Or.inl rfl
  | cons x xs ih =>
    intro a
    simp only [List.foldl_cons]
    rcases ih (max a x) with h | h
    · rcases max_choice a x with h2 | h2
      · exact Or.inl (by rw [h, h2])
      · exact Or.inr (by rw [h, h2]; exact List.mem_cons_self x xs)
    · exact Or.inr (List.mem_cons_of_mem x h)

/-- Every element is bounded by the Python `max(xs, default=0)`. -/
theorem maxDefault0_is_ub (xs : List Int) : ∀ x ∈ xs, x ≤ maxDefault0 xs := by
  cases xs with
  | nil => simp
  | cons x rest =>
    intro y hy
    simp only [maxDefault0]
    rcases List.mem_cons.mp hy with h0 | h0
    · subst h0
      exact (foldl_max_bounds rest y).1
    · exact (foldl_max_bounds rest x).2 y h0

/-- On a non-empty list, the Python `max(xs, default=0)` is one of the elements. -/
theorem maxDefault0_mem (xs : List Int) (h : xs ≠ []) : maxDefault0 xs ∈ xs := by
  cases xs with
  | nil => exact absurd rfl h
  | cons x rest =>
    simp only [maxDefault0]
    rcases foldl_max_mem rest x with h2 | h2
    · rw [h2]
      exact List.mem_cons_self x rest
    · exact List.mem_cons_of_mem x h2

/-- Claim C9: the list service starts its id counter at 1 and hands out
`_next_id`, then increments it, so list ids are assigned sequentially and the
fresh id differs from every stored one (given the counter invariant, which
creation preserves); the todo service assigns `max existing todo id + 1`
(1 on an empty list), which is distinct from every existing todo id in the
owning list. -/
theorem create_assigns_sequential_ids (st : ListStore) (nm : String)
    (hinv : ∀ tl ∈ st.storage, tl.id < st.next_id) :
    ListStore.init.next_id = 1 ∧
    (TodoListService.create st nm).1.id = st.next_id ∧
    ((TodoListService.create st nm).2).next_id = st.next_id + 1 ∧
    (∀ tl ∈ st.storage, tl.id ≠ (TodoListService.create st nm).1.id) ∧
    (∀ tl2 ∈ ((TodoListService.create st nm).2).storage,
      tl2.id < ((TodoListService.create st nm).2).next_id) ∧
    newTodoId [] = 1 ∧
    (∀ ts : List Todo, ts ≠ [] →
      newTodoId ts - 1 ∈ ts.map Todo.id ∧ ∀ t ∈ ts, t.id ≤ newTodoId ts - 1) ∧
    (∀ ts : List Todo, ∀ t ∈ ts, t.id ≠ newTodoId ts) ∧
    (∀ (storage : List TodoList) (lid : Int) (d : Option String) (c : Option Bool)
        (tl : TodoList), getList storage lid = some tl →
      ∃ nt storage2, TodoService.create storage lid d c = Except.ok (nt, storage2) ∧
        nt.id = newTodoId (tl.todos.getD [])) := by
  refine ⟨rfl, rfl, rfl, ?_, ?_, rfl, ?_, ?_, ?_⟩
  · intro tl htl
    exact ne_of_lt (hinv tl htl)
  · intro tl2 htl2
    simp only [TodoListService.create] at htl2 ⊢
    rcases List.mem_append.mp htl2 with h0 | h0
    · have := hinv tl2 h0
      omega
    · rcases List.mem_singleton.mp h0 with rfl
      simp
  · intro ts hts
    have hmapne : ts.map Todo.id ≠ [] := by
      simpa using hts
    constructor
    · have : newTodoId ts - 1 = maxDefault0 (ts.map Todo.id) := by
        unfold newTodoId
        omega
      rw [this]
      exact maxDefault0_mem _ hmapne
    · intro t ht
      have := maxDefault0_is_ub (ts.map Todo.id) t.id (List.mem_map_of_mem Todo.id ht)
      unfold newTodoId
      omega
  · intro ts t ht
    have := maxDefault0_is_ub (ts.map Todo.id) t.id (List.mem_map_of_mem Todo.id ht)
    unfold newTodoId
    omega
  · intro storage lid d c tl h
    simp only [TodoService.create, h]
    exact ⟨_, _, rfl, rfl⟩

/-- Witness for `create_assigns_sequential_ids`: a store holding one list
(id 1) with counter 2, and a todo list with ids 1 and 3. -/
theorem create_assigns_sequential_ids_witness :
    (TodoListService.create ⟨[⟨1, "a", some []⟩], 2⟩ "b").1.id = 2 ∧
    (∀ t ∈ ([⟨1, some "x", some true⟩, ⟨3, some "y", some false⟩] : List Todo),
      t.id ≠ newTodoId [⟨1, some "x", some true⟩, ⟨3, some "y", some false⟩]) := by
  have h := create_assigns_sequential_ids ⟨[⟨1, "a", some []⟩], 2⟩ "b" (by decide)
  exact ⟨h.2.1, h.2.2.2.2.2.2.2.1 [⟨1, some "x", some true⟩, ⟨3, some "y", some false⟩]⟩
